import Mathlib

/-!
Verification of the authenticated request pipeline of the coincheck client
(`src/client.rs`): HMAC-SHA256 request signing (`make_signature`), the
dual-schema response decoding, the retry policy (`should_retry`,
`MAX_RETRY_COUNT`, `RETRY_INTERVAL_MS`) and the authenticated request
executors (`get_request_with_auth`, `post_request_with_auth`,
`delete_request_with_auth`).

Machine integers are modelled as `Nat` with explicit reduction modulo
`2^32` where the source computes on 32-bit words; byte strings are
`List Nat` with entries below 256.
-/

namespace Coincheck

/-- Reduce a natural number to a 32-bit word. -/
def w32 (n : Nat) : Nat := n % 4294967296

/-- Right rotation of a 32-bit word by `n` places. -/
def rotr (n x : Nat) : Nat := w32 ((x >>> n) ||| (x <<< (32 - n)))

/-- Bitwise complement of a 32-bit word. -/
def compl32 (x : Nat) : Nat := x ^^^ 4294967295

/-- The SHA-256 round constants. -/
def sha256K : List Nat :=
  [1116352408, 1899447441, 3049323471, 3921009573, 961987163, 1508970993,
   2453635748, 2870763221, 3624381080, 310598401, 607225278, 1426881987,
   1925078388, 2162078206, 2614888103, 3248222580, 3835390401, 4022224774,
   264347078, 604807628, 770255983, 1249150122, 1555081692, 1996064986,
   2554220882, 2821834349, 2952996808, 3210313671, 3336571891, 3584528711,
   113926993, 338241895, 666307205, 773529912, 1294757372, 1396182291,
   1695183700, 1986661051, 2177026350, 2456956037, 2730485921, 2820302411,
   3259730800, 3345764771, 3516065817, 3600352804, 4094571909, 275423344,
   430227734, 506948616, 659060556, 883997877, 958139571, 1322822218,
   1537002063, 1747873779, 1955562222, 2024104815, 2227730452, 2361852424,
   2428436474, 2756734187, 3204031479, 3329325298]

/-- The working state of the SHA-256 compression function: eight 32-bit words. -/
structure Hash8 where
  a : Nat
  b : Nat
  c : Nat
  d : Nat
  e : Nat
  f : Nat
  g : Nat
  h : Nat
deriving Repr, DecidableEq

/-- The SHA-256 initial hash value. -/
def sha256H0 : Hash8 :=
  ⟨1779033703, 3144134277, 1013904242, 2773480762,
   1359893119, 2600822924, 528734635, 1541459225⟩

/-- Big-endian rendering of `n` as `k` bytes. -/
def bytesBE : Nat → Nat → List Nat
  | 0, _ => []
  | k + 1, n => bytesBE k (n / 256) ++ [n % 256]

/-- SHA-256 message padding: append `128`, zero bytes, and the 64-bit
big-endian bit length, so the total length is a multiple of 64. -/
def sha256pad (msg : List Nat) : List Nat :=
  let len := msg.length
  let zeros := (64 - (len + 9) % 64) % 64
  msg ++ [128] ++ List.replicate zeros 0 ++ bytesBE 8 (len * 8)

/-- The 32-bit big-endian word starting at offset `i` of a byte list. -/
def wordAt (l : List Nat) (i : Nat) : Nat :=
  l.getD i 0 * 16777216 + l.getD (i + 1) 0 * 65536 +
    l.getD (i + 2) 0 * 256 + l.getD (i + 3) 0

/-- The sixteen 32-bit words of the `b`-th 64-byte block of a padded message. -/
def blockWords (padded : List Nat) (b : Nat) : List Nat :=
  (List.range 16).map (fun i => wordAt padded (64 * b + 4 * i))

/-- One step of the SHA-256 message-schedule extension; the accumulator holds
the schedule so far in reverse order. -/
def scheduleStep (rev : List Nat) : List Nat :=
  let w16 := rev.getD 15 0
  let w15 := rev.getD 14 0
  let w7 := rev.getD 6 0
  let w2 := rev.getD 1 0
  let s0 := rotr 7 w15 ^^^ rotr 18 w15 ^^^ (w15 >>> 3)
  let s1 := rotr 17 w2 ^^^ rotr 19 w2 ^^^ (w2 >>> 10)
  w32 (w16 + s0 + w7 + s1) :: rev

/-- The full 64-word SHA-256 message schedule of one block. -/
def schedule (ws : List Nat) : List Nat :=
  ((List.range 48).foldl (fun rev _ => scheduleStep rev) ws.reverse).reverse

/-- One round of the SHA-256 compression function. -/
def sha256Round (s : Hash8) (k : Nat) (w : Nat) : Hash8 :=
  let bigS1 := rotr 6 s.e ^^^ rotr 11 s.e ^^^ rotr 25 s.e
  let ch := (s.e &&& s.f) ^^^ (compl32 s.e &&& s.g)
  let temp1 := w32 (s.h + bigS1 + ch + k + w)
  let bigS0 := rotr 2 s.a ^^^ rotr 13 s.a ^^^ rotr 22 s.a
  let maj := (s.a &&& s.b) ^^^ (s.a &&& s.c) ^^^ (s.b &&& s.c)
  let temp2 := w32 (bigS0 + maj)
  ⟨w32 (temp1 + temp2), s.a, s.b, s.c, w32 (s.d + temp1), s.e, s.f, s.g⟩

/-- Compress one 64-byte block into the running hash state. -/
def compress (h : Hash8) (block : List Nat) : Hash8 :=
  let ws := schedule block
  let s := (sha256K.zip ws).foldl (fun s kw => sha256Round s kw.1 kw.2) h
  ⟨w32 (h.a + s.a), w32 (h.b + s.b), w32 (h.c + s.c), w32 (h.d + s.d),
   w32 (h.e + s.e), w32 (h.f + s.f), w32 (h.g + s.g), w32 (h.h + s.h)⟩

/-- SHA-256 of a byte list, as a list of 32 bytes. -/
def sha256 (msg : List Nat) : List Nat :=
  let padded := sha256pad msg
  let nblocks := padded.length / 64
  let s := (List.range nblocks).foldl (fun h b => compress h (blockWords padded b)) sha256H0
  ([s.a, s.b, s.c, s.d, s.e, s.f, s.g, s.h]).flatMap (bytesBE 4)

/-- HMAC-SHA256 with a 64-byte block size. -/
def hmac_sha256 (key msg : List Nat) : List Nat :=
  let k0 := if 64 < key.length then sha256 key else key
  let k1 := k0 ++ List.replicate (64 - k0.length) 0
  let ipad := k1.map (fun b => b ^^^ 54)
  let opad := k1.map (fun b => b ^^^ 92)
  sha256 (opad ++ sha256 (ipad ++ msg))

/-- The lowercase hexadecimal digit for `n < 16`. -/
def hexDigit (n : Nat) : Char :=
  if n < 10 then Char.ofNat (48 + n) else Char.ofNat (87 + n)

/-- Render one byte as two lowercase hexadecimal digits, as Rust `{:02x}`
does for a `u8`. -/
def byteHex (b : Nat) : String :=
  String.mk [hexDigit (b / 16 % 16), hexDigit (b % 16)]

/-- Lowercase hexadecimal rendering of a byte list: two hex digits per
byte, no separators (the rendering the spec describes for the digest). -/
def hexRender : List Nat → String
  | [] => ""
  | b :: bs => byteHex b ++ hexRender bs

/-- The UTF-8 bytes of one character. -/
def utf8Char (c : Char) : List Nat :=
  let n := c.toNat
  if n < 128 then [n]
  else if n < 2048 then [192 ||| (n >>> 6), 128 ||| (n &&& 63)]
  else if n < 65536 then
    [224 ||| (n >>> 12), 128 ||| ((n >>> 6) &&& 63), 128 ||| (n &&& 63)]
  else
    [240 ||| (n >>> 18), 128 ||| ((n >>> 12) &&& 63),
     128 ||| ((n >>> 6) &&& 63), 128 ||| (n &&& 63)]

/-- The UTF-8 bytes of a string, as Rust `str::as_bytes`. -/
def strBytes (s : String) : List Nat := s.data.flatMap utf8Char

/-- Embedding of `make_signature` (src/client.rs:336-344): HMAC-SHA256,
keyed by `secret_key`, of `format!("{}{}{}", nonce, url, body)`, rendered
by folding `{:02x}` over the digest bytes. The `u128` nonce is a `Nat`;
its decimal rendering agrees on the `u128` range. -/
def make_signature (nonce : Nat) (url body secret_key : String) : String :=
  let key := strBytes secret_key
  let v := toString nonce ++ url ++ body
  let bb := hmac_sha256 key (strBytes v)
  bb.foldl (fun s b => s ++ byteHex b) ""

/-- The HTTP verbs used by the authenticated executors. -/
inductive Method where
  | get
  | post
  | delete
deriving Repr, DecidableEq

/-- Modelled from the spec: the generic server error schema
`{"success": false, "error": "<message>"}` (`crate::response::ErrorResponse`
is declared outside src/; client.rs reads its `error` field). -/
structure ErrorResponse where
  success : Bool
  error : String
deriving Repr, DecidableEq

/-- Embedding of `DefaultClient::should_retry` (src/client.rs:331-333). -/
def should_retry (res : ErrorResponse) : Bool :=
  res.error == "Nonce must be incremented"

/-- Modelled from the spec: the error kinds of spec section 7
(`crate::error::MyError` is declared outside src/); client.rs constructs
`ResponseError { message, url, request }` and `ParseError(text)`. -/
inductive MyError where
  | TransportError (message : String)
  | ParseError (text : String)
  | ResponseError (message url request : String)
  | ConfigurationError (message : String)
deriving Repr, DecidableEq

/-- Embedding of `MAX_RETRY_COUNT` (src/client.rs:22), an `i32`. -/
def MAX_RETRY_COUNT : Int := 5

/-- Embedding of `RETRY_INTERVAL_MS` (src/client.rs:23), milliseconds. -/
def RETRY_INTERVAL_MS : Nat := 10

/-- One HTTP request as sent by an attempt: verb, url, headers in the order
they are added by the builder chain, and the attached body text
(empty for GET/DELETE, the serialized JSON for POST). -/
structure SentRequest where
  method : Method
  url : String
  headers : List (String × String)
  body : String
deriving Repr, DecidableEq

/-- The body text of attempt `i`: the result of the `i`-th
`serde_json::to_string` call for POST, and the empty string for
GET/DELETE (src/client.rs:195, 244-245, 292). -/
def attemptBody (m : Method) (sers : Nat → String) (i : Nat) : String :=
  match m with
  | .post => sers i
  | _ => ""

/-- The request built and sent by one attempt (src/client.rs:197-206,
247-258, 294-303): auth headers from the fresh nonce and signature, with
POST additionally sending `Content-Type` and the JSON body. -/
def buildRequest (m : Method) (access_key secret_key url : String)
    (nonce : Nat) (json : String) : SentRequest :=
  let signature := make_signature nonce url json secret_key
  match m with
  | .post =>
    { method := .post, url := url,
      headers := [("Content-Type", "application/json"),
                  ("ACCESS-KEY", access_key),
                  ("ACCESS-NONCE", toString nonce),
                  ("ACCESS-SIGNATURE", signature)],
      body := json }
  | m =>
    { method := m, url := url,
      headers := [("ACCESS-KEY", access_key),
                  ("ACCESS-NONCE", toString nonce),
                  ("ACCESS-SIGNATURE", signature)],
      body := "" }

/-- The observable trace of one logical authenticated call: its outcome,
the requests sent (one per attempt, in order), and the delays slept
between attempts. -/
structure Trace (T : Type) where
  result : Except MyError T
  requests : List SentRequest
  sleeps : List Nat
deriving Repr

/-- Embedding of the retry loop shared by `get_request_with_auth`,
`post_request_with_auth` and `delete_request_with_auth`
(src/client.rs:189-232, 234-284, 286-329); the three differ only in the
verb, the body attachment and the `Content-Type` header. Effects are
oracle sequences indexed by attempt: `nonces i` is the `i`-th
`SystemTime::now` millisecond reading, `sers i` the `i`-th
`serde_json::to_string(&body)` result, `resps i` the `i`-th response
text; `decT` and `decErr` are `serde_json::from_str` into the success
schema `T` and into `ErrorResponse`. -/
def requestLoop {T : Type} (m : Method) (access_key secret_key url : String)
    (decT : String → Option T) (decErr : String → Option ErrorResponse)
    (nonces : Nat → Nat) (sers : Nat → String) (resps : Nat → String)
    (attempt : Nat) (retry_count : Int) : Trace T :=
  let nonce := nonces attempt
  let json := attemptBody m sers attempt
  let req := buildRequest m access_key secret_key url nonce json
  let res_text := resps attempt
  match decT res_text with
  | some res => ⟨.ok res, [req], []⟩
  | none =>
    match decErr res_text with
    | some res =>
      if h : should_retry res ∧ retry_count + 1 ≤ MAX_RETRY_COUNT then
        let rest := requestLoop m access_key secret_key url decT decErr
          nonces sers resps (attempt + 1) (retry_count + 1)
        ⟨rest.result, req :: rest.requests, RETRY_INTERVAL_MS :: rest.sleeps⟩
      else
        ⟨.error (.ResponseError res.error url json), [req], []⟩
    | none => ⟨.error (.ParseError res_text), [req], []⟩
termination_by (MAX_RETRY_COUNT - retry_count).toNat
decreasing_by
  simp only [MAX_RETRY_COUNT] at *
  omega

/-- One logical authenticated call: the loop started with
`retry_count = 0` at the first attempt. -/
def request_with_auth {T : Type} (m : Method) (access_key secret_key url : String)
    (decT : String → Option T) (decErr : String → Option ErrorResponse)
    (nonces : Nat → Nat) (sers : Nat → String) (resps : Nat → String) : Trace T :=
  requestLoop m access_key secret_key url decT decErr nonces sers resps 0 0

/-- Embedding of `get_request_with_auth` (src/client.rs:189-232). -/
def get_request_with_auth {T : Type} (access_key secret_key url : String)
    (decT : String → Option T) (decErr : String → Option ErrorResponse)
    (nonces : Nat → Nat) (resps : Nat → String) : Trace T :=
  request_with_auth .get access_key secret_key url decT decErr nonces (fun _ => "") resps

/-- Embedding of `post_request_with_auth` (src/client.rs:234-284). -/
def post_request_with_auth {T : Type} (access_key secret_key url : String)
    (decT : String → Option T) (decErr : String → Option ErrorResponse)
    (nonces : Nat → Nat) (sers : Nat → String) (resps : Nat → String) : Trace T :=
  request_with_auth .post access_key secret_key url decT decErr nonces sers resps

/-- Embedding of `delete_request_with_auth` (src/client.rs:286-329). -/
def delete_request_with_auth {T : Type} (access_key secret_key url : String)
    (decT : String → Option T) (decErr : String → Option ErrorResponse)
    (nonces : Nat → Nat) (resps : Nat → String) : Trace T :=
  request_with_auth .delete access_key secret_key url decT decErr nonces (fun _ => "") resps

theorem bytesBE_length (k : Nat) : ∀ n : Nat, (bytesBE k n).length = k := by
  induction k with
  | zero => intro n; rfl
  | succ k ih => intro n; simp [bytesBE, ih]

theorem bytesBE_mem (k : Nat) : ∀ (n : Nat), ∀ b ∈ bytesBE k n, b < 256 := by
  induction k with
  | zero => intro n b hb; simp [bytesBE] at hb
  | succ k ih =>
    intro n b hb
    simp only [bytesBE, List.mem_append, List.mem_singleton] at hb
    rcases hb with hb | rfl
    · exact ih _ _ hb
    · omega

theorem sha256_length (msg : List Nat) : (sha256 msg).length = 32 := by
  simp [sha256, bytesBE_length]

theorem sha256_mem (msg : List Nat) : ∀ b ∈ sha256 msg, b < 256 := by
  intro b hb
  simp only [sha256, List.mem_flatMap] at hb
  obtain ⟨a, -, hb⟩ := hb
  exact bytesBE_mem 4 a b hb

theorem hmac_sha256_length (key msg : List Nat) :
    (hmac_sha256 key msg).length = 32 := by
  simp only [hmac_sha256]
  exact sha256_length _

theorem hmac_sha256_mem (key msg : List Nat) :
    ∀ b ∈ hmac_sha256 key msg, b < 256 := by
  intro b hb
  simp only [hmac_sha256] at hb
  exact sha256_mem _ b hb

theorem hexDigit_mem (n : Nat) (h : n < 16) :
    hexDigit n ∈ "0123456789abcdef".data := by
  interval_cases n <;> decide

theorem hexRender_data (bs : List Nat) :
    (hexRender bs).data = bs.flatMap (fun b => [hexDigit (b / 16 % 16), hexDigit (b % 16)]) := by
  induction bs with
  | nil => rfl
  | cons b bs ih => simp [hexRender, byteHex, String.data_append, ih]

theorem hexRender_length (bs : List Nat) : (hexRender bs).length = 2 * bs.length := by
  show (hexRender bs).data.length = 2 * bs.length
  rw [hexRender_data]
  induction bs with
  | nil => rfl
  | cons b bs ih => simp only [List.flatMap_cons, List.length_append, ih]; simp; omega

theorem hexRender_mem (bs : List Nat) :
    ∀ c ∈ (hexRender bs).data, c ∈ "0123456789abcdef".data := by
  intro c hc
  rw [hexRender_data] at hc
  simp only [List.mem_flatMap, List.mem_cons, List.mem_singleton] at hc
  obtain ⟨b, -, hc | hc | hfalse⟩ := hc
  · exact hc ▸ hexDigit_mem _ (Nat.mod_lt _ (by omega))
  · exact hc ▸ hexDigit_mem _ (Nat.mod_lt _ (by omega))
  · simp at hfalse

theorem foldl_append_hex (bs : List Nat) : ∀ acc : String,
    bs.foldl (fun s b => s ++ byteHex b) acc = acc ++ hexRender bs := by
  induction bs with
  | nil => intro acc; simp [hexRender]
  | cons b bs ih =>
    intro acc
    have hassoc : ∀ x y z : String, x ++ y ++ z = x ++ (y ++ z) := by
      intro x y z
      apply String.ext
      simp [String.data_append]
    simp only [List.foldl_cons, hexRender, ih, hassoc]

theorem make_signature_eq_hexRender (nonce : Nat) (url body secret : String) :
    make_signature nonce url body secret =
      hexRender (hmac_sha256 (strBytes secret)
        (strBytes (toString nonce ++ url ++ body))) := by
  simp only [make_signature, foldl_append_hex, String.empty_append]

end Coincheck

namespace Coincheck

/-- Sanity check of the SHA-256 embedding against the standard test vector
for the empty message. -/
theorem sha256_empty_vector : sha256 [] =
    [227, 176, 196, 66, 152, 252, 28, 20, 154, 251, 244, 200,
     153, 111, 185, 36, 39, 174, 65, 228, 100, 155, 147, 76,
     164, 149, 153, 27, 120, 82, 184, 85] := by decide

/-- Sanity check of the SHA-256 embedding against the standard test vector
for the message "abc". -/
theorem sha256_abc_vector : sha256 [97, 98, 99] =
    [186, 120, 22, 191, 143, 1, 207, 234, 65, 65, 64, 222,
     93, 174, 34, 35, 176, 3, 97, 163, 150, 23, 122, 156,
     180, 16, 255, 97, 242, 0, 21, 173] := by decide

end Coincheck

namespace Coincheck

theorem requestLoop_length_pos {T : Type} (m : Method) (ak sk url : String)
    (decT : String → Option T) (decErr : String → Option ErrorResponse)
    (nonces : Nat → Nat) (sers : Nat → String) (resps : Nat → String)
    (attempt : Nat) (rc : Int) :
    0 < (requestLoop m ak sk url decT decErr nonces sers resps attempt rc).requests.length := by
  induction attempt, rc using requestLoop.induct m ak sk url decT decErr nonces sers resps with
  | case1 attempt rc rt res hT =>
    rw [requestLoop]
    simp [hT]
  | case2 attempt rc rt hT res hE hcond ih =>
    rw [requestLoop]
    simp only [hT, hE]
    rw [dif_pos hcond]
    simp
  | case3 attempt rc rt hT res hE hcond =>
    rw [requestLoop]
    simp only [hT, hE]
    rw [dif_neg hcond]
    simp
  | case4 attempt rc rt hT hE =>
    rw [requestLoop]
    simp [hT, hE]

theorem requestLoop_get {T : Type} (m : Method) (ak sk url : String)
    (decT : String → Option T) (decErr : String → Option ErrorResponse)
    (nonces : Nat → Nat) (sers : Nat → String) (resps : Nat → String)
    (attempt : Nat) (rc : Int) :
    ∀ i : Nat,
      i < (requestLoop m ak sk url decT decErr nonces sers resps attempt rc).requests.length →
      (requestLoop m ak sk url decT decErr nonces sers resps attempt rc).requests.get? i =
        some (buildRequest m ak sk url (nonces (attempt + i))
          (attemptBody m sers (attempt + i))) := by
  induction attempt, rc using requestLoop.induct m ak sk url decT decErr nonces sers resps with
  | case1 attempt rc rt res hT =>
    intro i hi
    rw [requestLoop] at hi ⊢
    simp only [hT] at hi ⊢
    simp at hi
    subst hi
    simp
  | case2 attempt rc rt hT res hE hcond ih =>
    intro i hi
    rw [requestLoop] at hi ⊢
    simp only [hT, hE] at hi ⊢
    rw [dif_pos hcond] at hi ⊢
    cases i with
    | zero => simp
    | succ j =>
      simp only [List.length_cons] at hi
      have hj : j < (requestLoop m ak sk url decT decErr nonces sers resps
          (attempt + 1) (rc + 1)).requests.length := by omega
      have heq : attempt + (j + 1) = attempt + 1 + j := by omega
      simp only [List.get?_cons_succ, heq]
      exact ih j hj
  | case3 attempt rc rt hT res hE hcond =>
    intro i hi
    rw [requestLoop] at hi ⊢
    simp only [hT, hE] at hi ⊢
    rw [dif_neg hcond] at hi ⊢
    simp at hi
    subst hi
    simp
  | case4 attempt rc rt hT hE =>
    intro i hi
    rw [requestLoop] at hi ⊢
    simp only [hT, hE] at hi ⊢
    simp at hi
    subst hi
    simp

theorem requestLoop_responseError {T : Type} (m : Method) (ak sk url : String)
    (decT : String → Option T) (decErr : String → Option ErrorResponse)
    (nonces : Nat → Nat) (sers : Nat → String) (resps : Nat → String)
    (attempt : Nat) (rc : Int) :
    ∀ msg u r : String,
      (requestLoop m ak sk url decT decErr nonces sers resps attempt rc).result =
        .error (.ResponseError msg u r) →
      u = url ∧ ∃ i e,
        (requestLoop m ak sk url decT decErr nonces sers resps attempt rc).requests.length
          = i + 1 ∧
        decT (resps (attempt + i)) = none ∧
        decErr (resps (attempt + i)) = some e ∧
        msg = e.error ∧
        r = attemptBody m sers (attempt + i) := by
  induction attempt, rc using requestLoop.induct m ak sk url decT decErr nonces sers resps with
  | case1 attempt rc rt res hT =>
    intro msg u r hres
    rw [requestLoop] at hres
    simp [hT] at hres
  | case2 attempt rc rt hT res hE hcond ih =>
    intro msg u r hres
    rw [requestLoop] at hres ⊢
    simp only [hT, hE] at hres ⊢
    rw [dif_pos hcond] at hres ⊢
    simp only at hres
    obtain ⟨hu, i, e, hlen, hT2, hE2, hmsg, hr⟩ := ih msg u r hres
    refine ⟨hu, i + 1, e, ?_, ?_, ?_, hmsg, ?_⟩
    · simp only [List.length_cons, hlen]
    · have heq : attempt + (i + 1) = attempt + 1 + i := by omega
      rw [heq]; exact hT2
    · have heq : attempt + (i + 1) = attempt + 1 + i := by omega
      rw [heq]; exact hE2
    · have heq : attempt + (i + 1) = attempt + 1 + i := by omega
      rw [heq]; exact hr
  | case3 attempt rc rt hT res hE hcond =>
    intro msg u r hres
    rw [requestLoop] at hres ⊢
    simp only [hT, hE] at hres ⊢
    rw [dif_neg hcond] at hres ⊢
    simp only [Except.error.injEq, MyError.ResponseError.injEq] at hres
    obtain ⟨hmsg, hu, hr⟩ := hres
    exact ⟨hu.symm, 0, res, by simp, by simpa using hT, by simpa using hE,
      hmsg.symm, by simpa using hr.symm⟩
  | case4 attempt rc rt hT hE =>
    intro msg u r hres
    rw [requestLoop] at hres
    simp [hT, hE] at hres

end Coincheck

namespace Coincheck

/-- C2: `make_signature` equals the lowercase hexadecimal rendering (two hex
digits per byte, no separators) of the HMAC-SHA256 digest, keyed by the
secret, of the byte concatenation `decimal(nonce) ++ url ++ body`; it is
deterministic (identical inputs yield identical output); and the
repository's test vector
`make_signature(12345, "https://example.com", "hoge=foo", "abcdefg")`
equals the fixed digest. -/
theorem make_signature_spec :
    (∀ (nonce : Nat) (url body secret : String),
      make_signature nonce url body secret =
        hexRender (hmac_sha256 (strBytes secret)
          (strBytes (toString nonce ++ url ++ body)))) ∧
    (∀ (n1 : Nat) (u1 b1 s1 : String) (n2 : Nat) (u2 b2 s2 : String),
      n1 = n2 → u1 = u2 → b1 = b2 → s1 = s2 →
      make_signature n1 u1 b1 s1 = make_signature n2 u2 b2 s2) ∧
    make_signature 12345 "https://example.com" "hoge=foo" "abcdefg" =
      "65a5d4bf76d4266e2f56582c31ca3e9ac163c80745e84357ead5a2899a37e218" := by
  refine ⟨make_signature_eq_hexRender, ?_, ?_⟩
  · intro n1 u1 b1 s1 n2 u2 b2 s2 h1 h2 h3 h4
    rw [h1, h2, h3, h4]
  · set_option maxRecDepth 4000 in decide

/-- Witness for C2: the determinism clause applied at one concrete input. -/
theorem make_signature_spec_witness :
    make_signature 1 "a" "b" "c" = make_signature 1 "a" "b" "c" :=
  make_signature_spec.2.1 1 "a" "b" "c" 1 "a" "b" "c" rfl rfl rfl rfl

/-- C10: for every nonce, url, body and secret, `make_signature` returns a
string of exactly 64 characters, each a lowercase hexadecimal digit. -/
theorem make_signature_hex_shape (nonce : Nat) (url body secret : String) :
    (make_signature nonce url body secret).length = 64 ∧
    ∀ c ∈ (make_signature nonce url body secret).data,
      c ∈ "0123456789abcdef".data := by
  rw [make_signature_eq_hexRender]
  constructor
  · rw [hexRender_length, hmac_sha256_length]
  · exact hexRender_mem _

/-- Witness for C10: the shape theorem applied at the repository's test
vector, with the character hypothesis discharged at the digit `6`. -/
theorem make_signature_hex_shape_witness :
    (make_signature 12345 "https://example.com" "hoge=foo" "abcdefg").length = 64 ∧
    ('6' : Char) ∈ "0123456789abcdef".data :=
  ⟨(make_signature_hex_shape 12345 "https://example.com" "hoge=foo" "abcdefg").1,
   (make_signature_hex_shape 12345 "https://example.com" "hoge=foo" "abcdefg").2 '6'
     (by set_option maxRecDepth 4000 in decide)⟩

/-- C1: if every attempt's response decodes (only) as the generic error
schema with message exactly "Nonce must be incremented", a logical
authenticated call of any verb performs exactly 6 attempts (1 initial +
5 retries), sleeps the fixed interval 5 times, and returns a
`ResponseError` carrying that server message — the same error kind a
non-recoverable server error produces, not a distinct retries-exhausted
kind. -/
theorem retry_bound {T : Type} (m : Method) (ak sk url : String)
    (decT : String → Option T) (decErr : String → Option ErrorResponse)
    (nonces : Nat → Nat) (sers : Nat → String) (resps : Nat → String)
    (errs : Nat → ErrorResponse)
    (hT : ∀ i, decT (resps i) = none)
    (hE : ∀ i, decErr (resps i) = some (errs i))
    (hmsg : ∀ i, (errs i).error = "Nonce must be incremented") :
    (request_with_auth m ak sk url decT decErr nonces sers resps).requests.length = 6 ∧
    (request_with_auth m ak sk url decT decErr nonces sers resps).sleeps =
      List.replicate 5 RETRY_INTERVAL_MS ∧
    (request_with_auth m ak sk url decT decErr nonces sers resps).result =
      .error (.ResponseError "Nonce must be incremented" url (attemptBody m sers 5)) := by
  have hsr : ∀ i, should_retry (errs i) = true := fun i => by
    simp [should_retry, hmsg i]
  refine ⟨?_, ?_, ?_⟩ <;>
    simp [request_with_auth, requestLoop, hT, hE, hsr, hmsg, MAX_RETRY_COUNT,
      List.replicate]

/-- Witness for C1: a server that always answers the recoverable error. -/
theorem retry_bound_witness :
    (request_with_auth (T := Unit) .get "key" "secret" "https://coincheck.com/api/x"
      (fun _ => none) (fun _ => some ⟨false, "Nonce must be incremented"⟩)
      (fun i => i) (fun _ => "") (fun _ => "resp")).requests.length = 6 ∧
    (request_with_auth (T := Unit) .get "key" "secret" "https://coincheck.com/api/x"
      (fun _ => none) (fun _ => some ⟨false, "Nonce must be incremented"⟩)
      (fun i => i) (fun _ => "") (fun _ => "resp")).sleeps =
      List.replicate 5 RETRY_INTERVAL_MS ∧
    (request_with_auth (T := Unit) .get "key" "secret" "https://coincheck.com/api/x"
      (fun _ => none) (fun _ => some ⟨false, "Nonce must be incremented"⟩)
      (fun i => i) (fun _ => "") (fun _ => "resp")).result =
      .error (.ResponseError "Nonce must be incremented" "https://coincheck.com/api/x"
        (attemptBody .get (fun _ => "") 5)) :=
  retry_bound .get "key" "secret" "https://coincheck.com/api/x"
    (fun _ => none) (fun _ => some ⟨false, "Nonce must be incremented"⟩)
    (fun i => i) (fun _ => "") (fun _ => "resp")
    (fun _ => ⟨false, "Nonce must be incremented"⟩)
    (fun _ => rfl) (fun _ => rfl) (fun _ => rfl)

/-- C3: if the first response text strictly decodes as the caller's success
schema `T`, the call returns the decoded success value after a single
attempt, whatever the generic error decoder would say about the same
text — the success schema is consulted first and wins. -/
theorem decode_precedence {T : Type} (m : Method) (ak sk url : String)
    (decT : String → Option T) (decErr : String → Option ErrorResponse)
    (nonces : Nat → Nat) (sers : Nat → String) (resps : Nat → String)
    (v : T) (hv : decT (resps 0) = some v) :
    (request_with_auth m ak sk url decT decErr nonces sers resps).result = .ok v ∧
    (request_with_auth m ak sk url decT decErr nonces sers resps).requests.length = 1 := by
  refine ⟨?_, ?_⟩ <;> simp [request_with_auth, requestLoop, hv]

/-- Witness for C3: a text that decodes as both schemas is treated as
success. -/
theorem decode_precedence_witness :
    (request_with_auth (T := Unit) .post "key" "secret" "https://coincheck.com/api/x"
      (fun _ => some ()) (fun _ => some ⟨false, "Nonce must be incremented"⟩)
      (fun i => i) (fun _ => "body") (fun _ => "resp")).result = .ok () ∧
    (request_with_auth (T := Unit) .post "key" "secret" "https://coincheck.com/api/x"
      (fun _ => some ()) (fun _ => some ⟨false, "Nonce must be incremented"⟩)
      (fun i => i) (fun _ => "body") (fun _ => "resp")).requests.length = 1 :=
  decode_precedence .post "key" "secret" "https://coincheck.com/api/x"
    (fun _ => some ()) (fun _ => some ⟨false, "Nonce must be incremented"⟩)
    (fun i => i) (fun _ => "body") (fun _ => "resp") () rfl

/-- C4: `should_retry` returns true exactly when the decoded server error
message is the exact string "Nonce must be incremented"; and for a server
error with any other message the executor makes exactly one attempt,
sleeps no interval, and returns a `ResponseError` immediately. -/
theorem retry_selectivity {T : Type} (m : Method) (ak sk url : String)
    (decT : String → Option T) (decErr : String → Option ErrorResponse)
    (nonces : Nat → Nat) (sers : Nat → String) (resps : Nat → String)
    (e : ErrorResponse)
    (hT0 : decT (resps 0) = none)
    (hE0 : decErr (resps 0) = some e)
    (hne : e.error ≠ "Nonce must be incremented") :
    (∀ r : ErrorResponse, should_retry r = true ↔ r.error = "Nonce must be incremented") ∧
    (request_with_auth m ak sk url decT decErr nonces sers resps).requests.length = 1 ∧
    (request_with_auth m ak sk url decT decErr nonces sers resps).sleeps = [] ∧
    (request_with_auth m ak sk url decT decErr nonces sers resps).result =
      .error (.ResponseError e.error url (attemptBody m sers 0)) := by
  have hsr : should_retry e = false := by simp [should_retry, hne]
  refine ⟨fun r => by simp [should_retry], ?_, ?_, ?_⟩ <;>
    simp [request_with_auth, requestLoop, hT0, hE0, hsr]

/-- Witness for C4: a server error with a different message is terminal on
the first attempt. -/
theorem retry_selectivity_witness :
    (∀ r : ErrorResponse, should_retry r = true ↔ r.error = "Nonce must be incremented") ∧
    (request_with_auth (T := Unit) .delete "key" "secret" "https://coincheck.com/api/x"
      (fun _ => none) (fun _ => some ⟨false, "Something else"⟩)
      (fun i => i) (fun _ => "") (fun _ => "resp")).requests.length = 1 ∧
    (request_with_auth (T := Unit) .delete "key" "secret" "https://coincheck.com/api/x"
      (fun _ => none) (fun _ => some ⟨false, "Something else"⟩)
      (fun i => i) (fun _ => "") (fun _ => "resp")).sleeps = [] ∧
    (request_with_auth (T := Unit) .delete "key" "secret" "https://coincheck.com/api/x"
      (fun _ => none) (fun _ => some ⟨false, "Something else"⟩)
      (fun i => i) (fun _ => "") (fun _ => "resp")).result =
      .error (.ResponseError "Something else" "https://coincheck.com/api/x"
        (attemptBody .delete (fun _ => "") 0)) :=
  retry_selectivity .delete "key" "secret" "https://coincheck.com/api/x"
    (fun _ => none) (fun _ => some ⟨false, "Something else"⟩)
    (fun i => i) (fun _ => "") (fun _ => "resp")
    ⟨false, "Something else"⟩ rfl rfl (by decide)

/-- C5: every attempt's request targets the given url and carries the
headers ACCESS-KEY (the access key verbatim), ACCESS-NONCE (the decimal
nonce), and ACCESS-SIGNATURE equal to `make_signature(n, U, "", s)` for
GET/DELETE and `make_signature(n, U, B, s)` for POST with serialized body
`B`; POST additionally sends `Content-Type: application/json` and a body
identical to the text that was signed, while GET/DELETE send no body. -/
theorem header_correctness {T : Type} (m : Method) (ak sk url : String)
    (decT : String → Option T) (decErr : String → Option ErrorResponse)
    (nonces : Nat → Nat) (sers : Nat → String) (resps : Nat → String)
    (i : Nat)
    (hi : i < (request_with_auth m ak sk url decT decErr nonces sers resps).requests.length) :
    ∃ req,
      (request_with_auth m ak sk url decT decErr nonces sers resps).requests.get? i =
        some req ∧
      req.url = url ∧
      ("ACCESS-KEY", ak) ∈ req.headers ∧
      ("ACCESS-NONCE", toString (nonces i)) ∈ req.headers ∧
      (m ≠ .post →
        ("ACCESS-SIGNATURE", make_signature (nonces i) url "" sk) ∈ req.headers ∧
        req.body = "") ∧
      (m = .post →
        ("ACCESS-SIGNATURE", make_signature (nonces i) url (sers i) sk) ∈ req.headers ∧
        ("Content-Type", "application/json") ∈ req.headers ∧
        req.body = sers i) := by
  have h := requestLoop_get m ak sk url decT decErr nonces sers resps 0 0 i
    (by simpa [request_with_auth] using hi)
  rw [Nat.zero_add] at h
  refine ⟨_, by simpa [request_with_auth] using h, ?_, ?_, ?_, ?_, ?_⟩ <;>
    cases m <;> simp [buildRequest, attemptBody]

/-- Witness for C5: the first attempt of a concrete POST call. -/
theorem header_correctness_witness :
    ∃ req,
      (request_with_auth (T := Unit) .post "key" "secret" "https://coincheck.com/api/x"
        (fun _ => some ()) (fun _ => none)
        (fun i => i + 100) (fun _ => "body") (fun _ => "resp")).requests.get? 0 =
        some req ∧
      req.url = "https://coincheck.com/api/x" ∧
      ("ACCESS-KEY", "key") ∈ req.headers ∧
      ("ACCESS-NONCE", toString ((fun i => i + 100) 0)) ∈ req.headers ∧
      (Method.post ≠ Method.post →
        ("ACCESS-SIGNATURE",
          make_signature ((fun i => i + 100) 0) "https://coincheck.com/api/x" "" "secret")
          ∈ req.headers ∧
        req.body = "") ∧
      (Method.post = Method.post →
        ("ACCESS-SIGNATURE",
          make_signature ((fun i => i + 100) 0) "https://coincheck.com/api/x"
            ((fun _ : Nat => "body") 0) "secret") ∈ req.headers ∧
        ("Content-Type", "application/json") ∈ req.headers ∧
        req.body = (fun _ : Nat => "body") 0) :=
  header_correctness .post "key" "secret" "https://coincheck.com/api/x"
    (fun _ => some ()) (fun _ => none)
    (fun i => i + 100) (fun _ => "body") (fun _ => "resp") 0
    (by simp [request_with_auth, requestLoop])

/-- C6: whenever a call fails with a `ResponseError`, the error carries the
request url, the decoded server error message of the final attempt, and
the request body text of that attempt — the serialized JSON for POST and
the empty string for GET/DELETE. -/
theorem response_error_contents {T : Type} (m : Method) (ak sk url : String)
    (decT : String → Option T) (decErr : String → Option ErrorResponse)
    (nonces : Nat → Nat) (sers : Nat → String) (resps : Nat → String)
    (msg u r : String)
    (hres : (request_with_auth m ak sk url decT decErr nonces sers resps).result =
      .error (.ResponseError msg u r)) :
    u = url ∧ ∃ i e,
      (request_with_auth m ak sk url decT decErr nonces sers resps).requests.length
        = i + 1 ∧
      decT (resps i) = none ∧
      decErr (resps i) = some e ∧
      msg = e.error ∧
      r = attemptBody m sers i := by
  have h := requestLoop_responseError m ak sk url decT decErr nonces sers resps 0 0 msg u r
    (by simpa [request_with_auth] using hres)
  simpa [request_with_auth] using h

/-- Witness for C6: a POST call whose only attempt receives a
non-recoverable server error. -/
theorem response_error_contents_witness :
    "https://coincheck.com/api/x" = "https://coincheck.com/api/x" ∧ ∃ i e,
      (request_with_auth (T := Unit) .post "key" "secret" "https://coincheck.com/api/x"
        (fun _ => none) (fun _ => some ⟨false, "boom"⟩)
        (fun i => i) (fun _ => "body") (fun _ => "resp")).requests.length = i + 1 ∧
      (fun _ : String => (none : Option Unit)) ((fun _ : Nat => "resp") i) = none ∧
      (fun _ : String => some (⟨false, "boom"⟩ : ErrorResponse)) ((fun _ : Nat => "resp") i)
        = some e ∧
      "boom" = e.error ∧
      "body" = attemptBody .post (fun _ => "body") i :=
  response_error_contents .post "key" "secret" "https://coincheck.com/api/x"
    (fun _ => none) (fun _ => some ⟨false, "boom"⟩)
    (fun i => i) (fun _ => "body") (fun _ => "resp")
    "boom" "https://coincheck.com/api/x" "body"
    (by simp [request_with_auth, requestLoop, should_retry, attemptBody])

/-- C7: a response text that decodes as neither the success schema nor the
generic error schema makes the call fail with a `ParseError` carrying the
raw response text, after exactly one attempt and with no retry delay. -/
theorem parse_error_terminal {T : Type} (m : Method) (ak sk url : String)
    (decT : String → Option T) (decErr : String → Option ErrorResponse)
    (nonces : Nat → Nat) (sers : Nat → String) (resps : Nat → String)
    (hT0 : decT (resps 0) = none) (hE0 : decErr (resps 0) = none) :
    (request_with_auth m ak sk url decT decErr nonces sers resps).result =
      .error (.ParseError (resps 0)) ∧
    (request_with_auth m ak sk url decT decErr nonces sers resps).requests.length = 1 ∧
    (request_with_auth m ak sk url decT decErr nonces sers resps).sleeps = [] := by
  refine ⟨?_, ?_, ?_⟩ <;> simp [request_with_auth, requestLoop, hT0, hE0]

/-- Witness for C7: a concrete unparseable response. -/
theorem parse_error_terminal_witness :
    (request_with_auth (T := Unit) .get "key" "secret" "https://coincheck.com/api/x"
      (fun _ => none) (fun _ => none)
      (fun i => i) (fun _ => "") (fun _ => "garbage")).result =
      .error (.ParseError ((fun _ : Nat => "garbage") 0)) ∧
    (request_with_auth (T := Unit) .get "key" "secret" "https://coincheck.com/api/x"
      (fun _ => none) (fun _ => none)
      (fun i => i) (fun _ => "") (fun _ => "garbage")).requests.length = 1 ∧
    (request_with_auth (T := Unit) .get "key" "secret" "https://coincheck.com/api/x"
      (fun _ => none) (fun _ => none)
      (fun i => i) (fun _ => "") (fun _ => "garbage")).sleeps = [] :=
  parse_error_terminal .get "key" "secret" "https://coincheck.com/api/x"
    (fun _ => none) (fun _ => none)
    (fun i => i) (fun _ => "") (fun _ => "garbage") rfl rfl

/-- C8: the `i`-th attempt of a call (counting retries) sends exactly the
request built from the `i`-th clock reading and, for POST, the `i`-th
serialization of the body: nonce, signature and body text are recomputed
from the per-attempt effect sequences, never reused from an earlier
attempt. -/
theorem fresh_per_attempt {T : Type} (m : Method) (ak sk url : String)
    (decT : String → Option T) (decErr : String → Option ErrorResponse)
    (nonces : Nat → Nat) (sers : Nat → String) (resps : Nat → String)
    (i : Nat)
    (hi : i < (request_with_auth m ak sk url decT decErr nonces sers resps).requests.length) :
    (request_with_auth m ak sk url decT decErr nonces sers resps).requests.get? i =
      some (buildRequest m ak sk url (nonces i) (attemptBody m sers i)) := by
  have h := requestLoop_get m ak sk url decT decErr nonces sers resps 0 0 i
    (by simpa [request_with_auth] using hi)
  simpa [request_with_auth] using h

/-- Witness for C8: the fourth attempt of an always-retrying call uses the
fourth clock reading. -/
theorem fresh_per_attempt_witness :
    (request_with_auth (T := Unit) .get "key" "secret" "https://coincheck.com/api/x"
      (fun _ => none) (fun _ => some ⟨false, "Nonce must be incremented"⟩)
      (fun i => i + 100) (fun _ => "") (fun _ => "resp")).requests.get? 3 =
      some (buildRequest .get "key" "secret" "https://coincheck.com/api/x"
        ((fun i => i + 100) 3) (attemptBody .get (fun _ => "") 3)) :=
  fresh_per_attempt .get "key" "secret" "https://coincheck.com/api/x"
    (fun _ => none) (fun _ => some ⟨false, "Nonce must be incremented"⟩)
    (fun i => i + 100) (fun _ => "") (fun _ => "resp") 3
    (by simp [request_with_auth, requestLoop, should_retry, MAX_RETRY_COUNT])

end Coincheck
